import Mathlib

/-!
# Verification of `ControlledTypeScriptSystem`

A shallow embedding of `src/typescript-reporter/reporter/ControlledTypeScriptSystem.ts`
(the watch/event-dispatch and layered-filesystem host), together with proofs about the
watcher registries, write routing, notification synthesis, the queued directory-change
flush, and the virtual timer queue.

Modelling conventions:
* Paths are `List Char` (a faithful model of JavaScript strings over the paths used here);
  JavaScript `Map` objects are association lists with unique keys and JavaScript
  insertion/update semantics (`mapGet`, `mapSet`, `mapDelete`, `mapHas`).
* Callbacks are identified by numeric identifiers (`CbId`); JavaScript compares callbacks
  by reference identity, so identifier equality models reference equality.
* The external collaborators (the real file-system provider's `normalizePath`, node's
  `dirname`, and the passive provider's `readStats`) are parameters in an `Env` record;
  provider mutations that may raise are modelled by `Env.providerFails` together with
  an `Except` result type, and exceptions short-circuit exactly where JavaScript would.
* Every operation returns, next to the successor state, the ordered trace of provider
  mutations and watcher-callback invocations it performs (`Event`), so that ordering and
  frame properties are stated on traces.
-/

set_option linter.unusedVariables false

namespace CTS

/-- JavaScript string model used for paths, data and file names. -/
abbrev Path := List Char

/-- Numeric identifier standing for a callback function (reference identity). -/
abbrev CbId := Nat

/-! ## JavaScript `Map` model (association lists, unique keys, insertion order) -/

/-- `Map.get`: value of the first (and, with unique keys, only) entry for `k`. -/
def mapGet {β : Type} : List (Path × β) → Path → Option β
  | [], _ => none
  | e :: rest, k => if e.1 = k then some e.2 else mapGet rest k

/-- `Map.get` with a default value. -/
def mapGetD {β : Type} (m : List (Path × β)) (k : Path) (d : β) : β :=
  (mapGet m k).getD d

/-- `Map.has`. -/
def mapHas {β : Type} (m : List (Path × β)) (k : Path) : Bool :=
  (mapGet m k).isSome

/-- `Map.set`: updates the entry in place when the key exists, appends otherwise. -/
def mapSet {β : Type} : List (Path × β) → Path → β → List (Path × β)
  | [], k, v => [(k, v)]
  | e :: rest, k, v => if e.1 = k then (k, v) :: rest else e :: mapSet rest k v

/-- `Map.delete`: removes the entry for the key (no-op when absent). -/
def mapDelete {β : Type} : List (Path × β) → Path → List (Path × β)
  | [], _ => []
  | e :: rest, k => if e.1 = k then rest else e :: mapDelete rest k

/-! ## Paths, ignore list, external environment -/

/-- `utils/path/forwardSlash`: converts backslashes to posix forward slashes. -/
def forwardSlash (p : Path) : Path :=
  p.map (fun c => if c = '\\' then '/' else c)

/-- The fixed ignore list from the source (`const ignoredPaths`). -/
def ignoredPaths : List Path :=
  [String.toList "/node_modules/.", String.toList "/.git", String.toList "/.#"]

/-- JavaScript `hay.includes(needle)`: contiguous substring test. -/
def strIncludes (hay needle : Path) : Bool :=
  match hay with
  | [] => needle.isPrefixOf ([] : Path)
  | c :: rest => needle.isPrefixOf (c :: rest) || strIncludes rest needle

/-- The ignore test performed by `invokeDirectoryWatchers`:
`ignoredPaths.some((ignoredPath) => forwardSlash(normalizedPath).includes(ignoredPath))`. -/
def isIgnoredPath (normalizedPath : Path) : Bool :=
  ignoredPaths.any (fun ip => strIncludes (forwardSlash normalizedPath) ip)

/-- Stat record returned by the passive provider's `readStats` (external interface). -/
structure Stats where
  isFile : Bool
  isDirectory : Bool
  size : Nat
  mtime : Nat
deriving DecidableEq

/-- Which provider a routed mutation targets. -/
inductive FsKind
  | passive
  | real
deriving DecidableEq

/-- External collaborators of the controlled system, specified at their interface:
the real provider's path normalization, node's `dirname`, the passive provider's
stat lookup, and whether a routed provider mutation raises for a given path. -/
structure Env where
  normalizePath : Path → Path
  dirname : Path → Path
  readStats : Path → Option Stats
  providerFails : FsKind → Path → Bool

/-- Helper used by `findEnd` below: scanning index state. -/
def findEnd : List Char → Nat → Bool → Option Nat
  | [], _, _ => none
  | c :: rest, i, matchedSlash =>
    if i = 0 then none
    else if c = '/' then
      if matchedSlash then findEnd rest (i - 1) true else some i
    else findEnd rest (i - 1) false

/-- Node's `path.posix.dirname`, used to instantiate `Env.dirname` in concrete runs. -/
def posixDirname (p : Path) : Path :=
  if p.length = 0 then [Char.ofNat 46]
  else
    let hasRoot := p.head? = some '/'
    match findEnd p.reverse (p.length - 1) true with
    | none => if hasRoot then ['/'] else [Char.ofNat 46]
    | some e => if hasRoot ∧ e = 1 then ['/', '/'] else p.take e

/-! ## Modes, events, system state -/

/-- `type FileSystemMode = 'readonly' | 'write-tsbuildinfo' | 'write-references'`. -/
inductive FileSystemMode
  | readonly
  | writeTsbuildinfo
  | writeReferences
deriving DecidableEq

/-- The designated build-metadata extension checked by `getWriteFileSystem`. -/
def tsbuildinfoExt : Path := String.toList ".tsbuildinfo"

/-- `getWriteFileSystem`: pure routing decision from (mode, path). -/
def getWriteFileSystem : FileSystemMode → Path → FsKind
  | FileSystemMode.readonly, _ => FsKind.passive
  | FileSystemMode.writeTsbuildinfo, p =>
    if tsbuildinfoExt.isSuffixOf p then FsKind.real else FsKind.passive
  | FileSystemMode.writeReferences, _ => FsKind.real

/-- `ts.FileWatcherEventKind`. -/
inductive EventKind
  | created
  | changed
  | deleted
deriving DecidableEq

/-- A watcher-callback invocation. `dir`/`rdir` record under which registry key the
invoked callback was registered (provenance annotation), the callback identity, and the
file name argument passed to the callback. -/
inductive Notif
  | file (cb : CbId) (fileName : Path) (kind : EventKind)
  | dir (watchedKey : Path) (cb : CbId) (fileName : Path)
  | rdir (watchedKey : Path) (cb : CbId) (fileName : Path)
deriving DecidableEq

/-- Observable steps taken by a mutating host operation, in order. -/
inductive Event
  | providerWrite (fs : FsKind) (path : Path) (data : Path)
  | providerDelete (fs : FsKind) (path : Path)
  | providerCreateDir (fs : FsKind) (path : Path)
  | providerUpdateTimes (fs : FsKind) (path : Path)
  | notif (n : Notif)
deriving DecidableEq

/-- Decidable equality of `Except` results, so concrete runs can be checked by `decide`. -/
instance {ε α : Type} [DecidableEq ε] [DecidableEq α] : DecidableEq (Except ε α) := fun a b =>
  match a, b with
  | Except.ok x, Except.ok y =>
    if h : x = y then isTrue (by rw [h]) else isFalse (fun hc => by cases hc; exact h rfl)
  | Except.error x, Except.error y =>
    if h : x = y then isTrue (by rw [h]) else isFalse (fun hc => by cases hc; exact h rfl)
  | Except.ok _, Except.error _ => isFalse (fun hc => by cases hc)
  | Except.error _, Except.ok _ => isFalse (fun hc => by cases hc)

/-- A queued OS-originated directory-change thunk: owner registration and identity.
Matches the per-watcher `queuedCallbacks` list in the source, whose `close` deletes
exactly its own thunks from the shared set. -/
structure QThunk where
  owner : Nat
  thunk : Nat
deriving DecidableEq

/-- The mutable state owned by one controlled system instance. -/
structure SysState where
  fileWatcherCallbacksMap : List (Path × List CbId)
  directoryWatcherCallbacksMap : List (Path × List CbId)
  recursiveDirectoryWatcherCallbacksMap : List (Path × List CbId)
  queuedThunks : List QThunk
  deletedFiles : List (Path × Bool)
  timeoutCallbacks : List Nat
deriving DecidableEq

/-- State at construction: all registries empty. -/
def SysState.init : SysState := ⟨[], [], [], [], [], []⟩

/-! ## Watcher registration (`createWatcher` and the returned `close` handle) -/

/-- `createWatcher`: normalize the path and append the callback to its list. -/
def createWatcher (env : Env) (watchersMap : List (Path × List CbId)) (path : Path)
    (cb : CbId) : List (Path × List CbId) :=
  let normalizedPath := env.normalizePath path
  mapSet watchersMap normalizedPath (mapGetD watchersMap normalizedPath [] ++ [cb])

/-- The `close` handle returned by `createWatcher`: filter out the callback (by
reference identity) and drop the entry entirely when the remaining list is empty. -/
def closeWatcher (env : Env) (watchersMap : List (Path × List CbId)) (path : Path)
    (cb : CbId) : List (Path × List CbId) :=
  let normalizedPath := env.normalizePath path
  let nextWatchers := (mapGetD watchersMap normalizedPath []).filter (fun w => decide ¬(w = cb))
  if nextWatchers.length > 0 then
    mapSet watchersMap normalizedPath nextWatchers
  else
    mapDelete watchersMap normalizedPath

/-! ## Notification dispatch -/

/-- `invokeFileWatchers`: invoke, in registration order, the callbacks registered on the
normalized path, passing the forward-slashed normalized path and the event kind. -/
def invokeFileWatchers (env : Env) (s : SysState) (path : Path) (event : EventKind) :
    List Notif :=
  let normalizedPath := env.normalizePath path
  match mapGet s.fileWatcherCallbacksMap normalizedPath with
  | some cbs => cbs.map (fun cb => Notif.file cb (forwardSlash normalizedPath) event)
  | none => []

/-- `invokeDirectoryWatchers`: skip entirely when the forward-slashed normalized path
contains an ignored substring; otherwise fire the non-recursive watchers registered on
`dirname(normalizedPath)` and every recursive watcher whose root equals that directory
or is a proper prefix of it at a `/` boundary. -/
def invokeDirectoryWatchers (env : Env) (s : SysState) (path : Path) : List Notif :=
  let normalizedPath := env.normalizePath path
  let directory := env.dirname normalizedPath
  if isIgnoredPath normalizedPath then []
  else
    (match mapGet s.directoryWatcherCallbacksMap directory with
      | some cbs => cbs.map (fun cb => Notif.dir directory cb (forwardSlash normalizedPath))
      | none => []) ++
    s.recursiveDirectoryWatcherCallbacksMap.flatMap (fun entry =>
      if entry.1 = directory ∨
          (entry.1.isPrefixOf directory ∧ (forwardSlash directory).get? entry.1.length = some '/')
      then entry.2.map (fun cb => Notif.rdir entry.1 cb (forwardSlash normalizedPath))
      else [])

/-- `invokeFileChanged`: classify as created when the tracker records the path deleted or
the file-watcher registry has no entry for it; in that case fire file watchers with
`created`, fire directory watchers (on the already-normalized path), and mark the path
not deleted. Otherwise fire only file watchers with `changed`. -/
def invokeFileChanged (env : Env) (s : SysState) (path : Path) : SysState × List Notif :=
  let normalizedPath := env.normalizePath path
  if mapGetD s.deletedFiles normalizedPath false || !(mapHas s.fileWatcherCallbacksMap normalizedPath)
  then
    ({ s with deletedFiles := mapSet s.deletedFiles normalizedPath false },
      invokeFileWatchers env s path EventKind.created ++
        invokeDirectoryWatchers env s normalizedPath)
  else
    (s, invokeFileWatchers env s path EventKind.changed)

/-- `invokeFileDeleted`: fire a deleted notification (file watchers, then directory
watchers) and mark deleted, but only when the tracker does not already record the path
as deleted. -/
def invokeFileDeleted (env : Env) (s : SysState) (path : Path) : SysState × List Notif :=
  let normalizedPath := env.normalizePath path
  if !(mapGetD s.deletedFiles normalizedPath false) then
    ({ s with deletedFiles := mapSet s.deletedFiles normalizedPath true },
      invokeFileWatchers env s path EventKind.deleted ++
        invokeDirectoryWatchers env s path)
  else
    (s, [])

/-! ## Mutating host operations (provider mutation first, then notifications) -/

/-- `writeFile`: routed provider write, then `invokeFileChanged`. A provider failure
(the exception a JavaScript provider would raise) propagates as `Except.error` before
any notification is synthesized. -/
def writeFile (env : Env) (mode : FileSystemMode) (s : SysState) (path data : Path) :
    Except Unit (SysState × List Event) :=
  let fs := getWriteFileSystem mode path
  if env.providerFails fs path then Except.error ()
  else
    let r := invokeFileChanged env s path
    Except.ok (r.1, Event.providerWrite fs path data :: r.2.map Event.notif)

/-- `deleteFile`: routed provider delete, then `invokeFileDeleted`. -/
def deleteFile (env : Env) (mode : FileSystemMode) (s : SysState) (path : Path) :
    Except Unit (SysState × List Event) :=
  let fs := getWriteFileSystem mode path
  if env.providerFails fs path then Except.error ()
  else
    let r := invokeFileDeleted env s path
    Except.ok (r.1, Event.providerDelete fs path :: r.2.map Event.notif)

/-- `createDirectory`: routed provider mkdir, then directory watchers only. -/
def createDirectory (env : Env) (mode : FileSystemMode) (s : SysState) (path : Path) :
    Except Unit (SysState × List Event) :=
  let fs := getWriteFileSystem mode path
  if env.providerFails fs path then Except.error ()
  else
    Except.ok (s, Event.providerCreateDir fs path ::
      (invokeDirectoryWatchers env s path).map Event.notif)

/-- `setModifiedTime`: routed provider `updateTimes`, then directory watchers and a
`changed` file notification; the deleted tracker is neither consulted nor mutated. -/
def setModifiedTime (env : Env) (mode : FileSystemMode) (s : SysState) (path : Path) :
    Except Unit (SysState × List Event) :=
  let fs := getWriteFileSystem mode path
  if env.providerFails fs path then Except.error ()
  else
    Except.ok (s, Event.providerUpdateTimes fs path ::
      (invokeDirectoryWatchers env s path ++
        invokeFileWatchers env s path EventKind.changed).map Event.notif)

/-! ## Read operations (passive provider only, never failing) -/

/-- `fileExists`: stats exist and describe a file. -/
def fileExists (env : Env) (path : Path) : Bool :=
  match env.readStats path with
  | some stats => stats.isFile
  | none => false

/-- `directoryExists`: stats exist and describe a directory. -/
def directoryExists (env : Env) (path : Path) : Bool :=
  match env.readStats path with
  | some stats => stats.isDirectory
  | none => false

/-- `getFileSize`: `stats ? stats.size : 0`. -/
def getFileSize (env : Env) (path : Path) : Nat :=
  match env.readStats path with
  | some stats => stats.size
  | none => 0

/-- `getModifiedTime`: `stats ? stats.mtime : undefined`. -/
def getModifiedTime (env : Env) (path : Path) : Option Nat :=
  (env.readStats path).map (fun stats => stats.mtime)

/-! ## Watch registration at the host level -/

/-- `watchFile`: registers in the file-watcher registry; invokes nothing. -/
def watchFile (env : Env) (s : SysState) (path : Path) (cb : CbId) :
    SysState × List Event :=
  ({ s with fileWatcherCallbacksMap := createWatcher env s.fileWatcherCallbacksMap path cb },
    [])

/-- Closing the handle returned by `watchFile`. -/
def watchFileClose (env : Env) (s : SysState) (path : Path) (cb : CbId) :
    SysState × List Event :=
  ({ s with fileWatcherCallbacksMap := closeWatcher env s.fileWatcherCallbacksMap path cb },
    [])

/-- `watchDirectory`: registers in the recursive or non-recursive directory registry
(identified by `w`, the registration owning any later queued native thunks); invokes
nothing and adds no queued thunks at registration time. -/
def watchDirectory (env : Env) (s : SysState) (path : Path) (cb : CbId)
    (recursive : Bool) (w : Nat) : SysState × List Event :=
  (if recursive then
    { s with recursiveDirectoryWatcherCallbacksMap :=
        createWatcher env s.recursiveDirectoryWatcherCallbacksMap path cb }
  else
    { s with directoryWatcherCallbacksMap :=
        createWatcher env s.directoryWatcherCallbacksMap path cb },
    [])

/-- A native (OS-level) directory event observed for the registration `w`: the wrapped
callback is queued as a thunk, not invoked. -/
def nativeDirEvent (s : SysState) (w : Nat) (t : Nat) : SysState :=
  { s with queuedThunks := s.queuedThunks ++ [⟨w, t⟩] }

/-- Closing the handle returned by `watchDirectory`: closes the inner controlled watcher
and deletes exactly the thunks queued by this registration (`queuedCallbacks`). -/
def watchDirectoryClose (env : Env) (s : SysState) (path : Path) (cb : CbId)
    (recursive : Bool) (w : Nat) : SysState × List Event :=
  (if recursive then
    { s with
        recursiveDirectoryWatcherCallbacksMap :=
          closeWatcher env s.recursiveDirectoryWatcherCallbacksMap path cb,
        queuedThunks := s.queuedThunks.filter (fun q => decide ¬(q.owner = w)) }
  else
    { s with
        directoryWatcherCallbacksMap :=
          closeWatcher env s.directoryWatcherCallbacksMap path cb,
        queuedThunks := s.queuedThunks.filter (fun q => decide ¬(q.owner = w)) },
    [])

/-! ## `invokeQueuedChanged` (flush) with JavaScript `Set.forEach` semantics

Thunks are identified by numbers; `spawn t` lists the thunks that running thunk `t`
adds to the queued set (a re-entrant reaction), in order. Per the ECMAScript
specification, `Set.prototype.forEach` visits values added to the set while the
iteration is in progress, and `Set.prototype.add` of an already-present value is a
no-op. `Set` iteration terminates because only finitely many distinct thunk values
exist; the embedding makes that explicit through a fuel argument, with theorems
supplying fuel from a bound on the thunk identifiers in play. -/

/-- `Set.prototype.add`: appends unless already present. -/
def setAdd (s : List Nat) (x : Nat) : List Nat :=
  if x ∈ s then s else s ++ [x]

/-- One `Set.forEach` pass starting at position `idx`: visit the element there, add
whatever its invocation spawns, continue; stop when the end of the (possibly grown)
set is reached. Returns the sequence of invoked thunks. -/
def flushAux (spawn : Nat → List Nat) : Nat → List Nat → Nat → List Nat
  | 0, _, _ => []
  | fuel + 1, qset, idx =>
    if h : idx < qset.length then
      let t := qset.get ⟨idx, h⟩
      t :: flushAux spawn fuel ((spawn t).foldl setAdd qset) (idx + 1)
    else []

/-- The invocation sequence of `invokeQueuedChanged` on a queued set whose thunk
identifiers (including spawned ones) lie below `bound`. -/
def flushRun (spawn : Nat → List Nat) (bound : Nat) (qset : List Nat) : List Nat :=
  flushAux spawn (bound + 1) qset 0

/-- `invokeQueuedChanged`: `forEach` every thunk, then `clear()` the set. Returns the
invocation sequence and the queued set left behind. -/
def invokeQueuedChanged (spawn : Nat → List Nat) (bound : Nat) (qset : List Nat) :
    List Nat × List Nat :=
  (flushRun spawn bound qset, [])

/-! ## Virtual timer queue (`setTimeout` / `clearTimeout` / `waitForQueued`)

A small cooperative-scheduling transition system. `schedule` models the host (or a
running callback) calling the controlled `setTimeout`, which registers the fresh token
in the pending set. `fire t k` models the scheduler running pending callback `t`,
which may itself schedule `k` further callbacks before it removes its own token.
`cancel` models `clearTimeout`. `resolveWait` models the `waitForQueued` loop
observing `timeoutCallbacks.size === 0` and resolving: it is enabled only when the
pending set is empty. -/

/-- Timer system state: pending tokens, the history of tokens ever scheduled, run and
cancelled, whether `waitForQueued` has resolved, and the fresh-token counter. -/
structure TimerState where
  pending : List Nat
  scheduled : List Nat
  ran : List Nat
  cancelled : List Nat
  resolved : Bool
  fresh : Nat
deriving DecidableEq

/-- Initial timer state. -/
def TimerState.init : TimerState := ⟨[], [], [], [], false, 0⟩

/-- Actions of the timer transition system. -/
inductive TimerAct
  | schedule
  | fire (t : Nat) (spawnCount : Nat)
  | cancel (t : Nat)
  | resolveWait
deriving DecidableEq

/-- One step; `none` when the action is not enabled in the state. -/
def timerStep (st : TimerState) : TimerAct → Option TimerState
  | TimerAct.schedule =>
    some { st with
      pending := st.pending ++ [st.fresh],
      scheduled := st.scheduled ++ [st.fresh],
      fresh := st.fresh + 1 }
  | TimerAct.fire t k =>
    if t ∈ st.pending then
      let spawned := (List.range k).map (fun i => st.fresh + i)
      some { st with
        pending := st.pending.filter (fun x => decide ¬(x = t)) ++ spawned,
        scheduled := st.scheduled ++ spawned,
        ran := st.ran ++ [t],
        fresh := st.fresh + k }
    else none
  | TimerAct.cancel t =>
    some { st with
      pending := st.pending.filter (fun x => decide ¬(x = t)),
      cancelled := st.cancelled ++ [t] }
  | TimerAct.resolveWait =>
    if st.pending = [] then some { st with resolved := true } else none

/-- Run a list of actions from a state; `none` as soon as one is not enabled. -/
def runTimer (st : TimerState) : List TimerAct → Option TimerState
  | [] => some st
  | a :: rest =>
    match timerStep st a with
    | some st2 => runTimer st2 rest
    | none => none

/-! ## Trace helpers -/

/-- The watcher-callback invocations contained in a trace, in order. -/
def notifsOf : List Event → List Notif
  | [] => []
  | Event.notif n :: rest => n :: notifsOf rest
  | Event.providerWrite _ _ _ :: rest => notifsOf rest
  | Event.providerDelete _ _ :: rest => notifsOf rest
  | Event.providerCreateDir _ _ :: rest => notifsOf rest
  | Event.providerUpdateTimes _ _ :: rest => notifsOf rest

/-- Whether a notification is a directory-watcher invocation (recursive or not). -/
def Notif.isDir : Notif → Bool
  | Notif.dir _ _ _ => true
  | Notif.rdir _ _ _ => true
  | Notif.file _ _ _ => false

/-! ## Helper lemmas about the `Map` model -/

theorem mapGet_mapSet_self {β : Type} (m : List (Path × β)) (k : Path) (v : β) :
    mapGet (mapSet m k v) k = some v := by
  induction m with
  | nil => simp [mapSet, mapGet]
  | cons e rest ih =>
    by_cases h : e.1 = k
    · simp [mapSet, mapGet, h]
    · simp [mapSet, mapGet, h, ih]

theorem mapGet_mapSet_ne {β : Type} (m : List (Path × β)) (k k' : Path) (v : β)
    (h : ¬(k' = k)) : mapGet (mapSet m k v) k' = mapGet m k' := by
  have h' : ¬(k = k') := fun hh => h hh.symm
  induction m with
  | nil => simp [mapSet, mapGet, h']
  | cons e rest ih =>
    by_cases he : e.1 = k
    · subst he
      simp [mapSet, mapGet, h']
    · simp [mapSet, mapGet, he, ih]

theorem mapGet_mapDelete_ne {β : Type} (m : List (Path × β)) (k k' : Path)
    (h : ¬(k' = k)) : mapGet (mapDelete m k) k' = mapGet m k' := by
  have h' : ¬(k = k') := fun hh => h hh.symm
  induction m with
  | nil => simp [mapDelete, mapGet]
  | cons e rest ih =>
    by_cases he : e.1 = k
    · subst he
      simp [mapDelete, mapGet, h']
    · simp [mapDelete, mapGet, he, ih]

theorem mapGet_eq_none_of_not_mem_keys {β : Type} (m : List (Path × β)) (k : Path)
    (h : ¬ k ∈ m.map Prod.fst) : mapGet m k = none := by
  induction m with
  | nil => simp [mapGet]
  | cons e rest ih =>
    simp only [List.map_cons, List.mem_cons] at h
    push_neg at h
    have h1 : ¬(e.1 = k) := fun hh => h.1 hh.symm
    simp [mapGet, h1, ih h.2]

theorem mapGet_mapDelete_self {β : Type} (m : List (Path × β)) (k : Path)
    (hnd : (m.map Prod.fst).Nodup) : mapGet (mapDelete m k) k = none := by
  induction m with
  | nil => simp [mapDelete, mapGet]
  | cons e rest ih =>
    simp only [List.map_cons, List.nodup_cons] at hnd
    by_cases he : e.1 = k
    · rw [show mapDelete (e :: rest) k = rest from by simp [mapDelete, he]]
      exact mapGet_eq_none_of_not_mem_keys rest k (he ▸ hnd.1)
    · simp [mapDelete, mapGet, he, ih hnd.2]

theorem mapSet_eq_self {β : Type} (m : List (Path × β)) (k : Path) (v : β)
    (h : mapGet m k = some v) : mapSet m k v = m := by
  induction m with
  | nil => simp [mapGet] at h
  | cons e rest ih =>
    by_cases he : e.1 = k
    · simp only [mapGet, he, if_pos] at h
      obtain rfl : e.2 = v := by simpa using h
      simp only [mapSet, he, if_pos]
      exact congrArg (· :: rest) (Prod.ext he.symm rfl)
    · simp only [mapGet, he, if_neg, ite_false] at h
      simp [mapSet, he, ih h]

theorem mapDelete_eq_self {β : Type} (m : List (Path × β)) (k : Path)
    (h : mapGet m k = none) : mapDelete m k = m := by
  induction m with
  | nil => simp [mapDelete]
  | cons e rest ih =>
    by_cases he : e.1 = k
    · simp [mapGet, he] at h
    · simp only [mapGet, he, ite_false, if_neg] at h
      simp [mapDelete, he, ih h]

theorem mapSet_mapSet {β : Type} (m : List (Path × β)) (k : Path) (v v' : β) :
    mapSet (mapSet m k v) k v' = mapSet m k v' := by
  induction m with
  | nil => simp [mapSet]
  | cons e rest ih =>
    by_cases he : e.1 = k
    · simp [mapSet, he]
    · simp [mapSet, he, ih]

theorem mapGet_eq_some_of_mem {β : Type} (m : List (Path × β)) (k : Path) (v : β)
    (hnd : (m.map Prod.fst).Nodup) (h : (k, v) ∈ m) : mapGet m k = some v := by
  induction m with
  | nil => simp at h
  | cons e rest ih =>
    simp only [List.map_cons, List.nodup_cons] at hnd
    rcases List.mem_cons.mp h with h | h
    · subst h
      simp [mapGet]
    · have hk : ¬(e.1 = k) := by
        intro he
        exact hnd.1 (he ▸ (List.mem_map.mpr ⟨(k, v), h, rfl⟩))
      simp [mapGet, hk, ih hnd.2 h]

theorem mem_of_mapGet_eq_some {β : Type} (m : List (Path × β)) (k : Path) (v : β)
    (h : mapGet m k = some v) : (k, v) ∈ m := by
  induction m with
  | nil => simp [mapGet] at h
  | cons e rest ih =>
    by_cases he : e.1 = k
    · simp only [mapGet, he, if_pos] at h
      obtain rfl : e.2 = v := by simpa using h
      exact List.mem_cons.mpr (Or.inl (Prod.ext he.symm rfl))
    · simp only [mapGet, he, ite_false, if_neg] at h
      exact List.mem_cons.mpr (Or.inr (ih h))

/-! ## Helper lemmas about `setAdd` and the flush -/

theorem mem_setAdd (s : List Nat) (x y : Nat) : y ∈ setAdd s x ↔ y ∈ s ∨ y = x := by
  by_cases h : x ∈ s
  · simp only [setAdd, if_pos h]
    constructor
    · exact Or.inl
    · rintro (hy | rfl)
      · exact hy
      · exact h
  · simp [setAdd, if_neg h]

theorem setAdd_append_ext (s : List Nat) (x : Nat) : ∃ ext, setAdd s x = s ++ ext := by
  by_cases h : x ∈ s
  · exact ⟨[], by simp [setAdd, h]⟩
  · exact ⟨[x], by simp [setAdd, h]⟩

theorem setAdd_nodup (s : List Nat) (x : Nat) (h : s.Nodup) : (setAdd s x).Nodup := by
  by_cases hx : x ∈ s
  · simpa [setAdd, hx] using h
  · rw [setAdd, if_neg hx, List.nodup_append]
    exact ⟨h, List.nodup_singleton x,
      fun a ha hb => hx ((List.mem_singleton.mp hb) ▸ ha)⟩

theorem foldl_setAdd_append_ext (l s : List Nat) : ∃ ext, l.foldl setAdd s = s ++ ext := by
  induction l generalizing s with
  | nil => exact ⟨[], by simp⟩
  | cons a rest ih =>
    obtain ⟨e1, he1⟩ := setAdd_append_ext s a
    obtain ⟨e2, he2⟩ := ih (setAdd s a)
    exact ⟨e1 ++ e2, by rw [List.foldl_cons, he2, he1, List.append_assoc]⟩

theorem mem_foldl_setAdd (l s : List Nat) (y : Nat) :
    y ∈ l.foldl setAdd s ↔ y ∈ s ∨ y ∈ l := by
  induction l generalizing s with
  | nil => simp
  | cons a rest ih =>
    simp only [List.foldl_cons, ih, mem_setAdd, List.mem_cons]
    tauto

theorem foldl_setAdd_nodup (l s : List Nat) (h : s.Nodup) : (l.foldl setAdd s).Nodup := by
  induction l generalizing s with
  | nil => simpa
  | cons a rest ih => exact ih _ (setAdd_nodup s a h)

theorem length_le_of_nodup_bounded (l : List Nat) (n : Nat) (hnd : l.Nodup)
    (hb : ∀ x ∈ l, x < n) : l.length ≤ n := by
  classical
  have hsub : l.toFinset ⊆ Finset.range n := by
    intro x hx
    exact Finset.mem_range.mpr (hb x (List.mem_toFinset.mp hx))
  have := Finset.card_le_card hsub
  rwa [List.toFinset_card_of_nodup hnd, Finset.card_range] at this

/-- Full specification of one `Set.forEach` pass with re-entrant additions: there is a
final grown set `fin` extending the start set such that the pass visits exactly
`fin.drop idx`, and everything spawned by a visited thunk is itself in `fin`. -/
theorem flushAux_spec (spawn : Nat → List Nat) (n : Nat)
    (hsp : ∀ t, ∀ x ∈ spawn t, x < n) :
    ∀ fuel qset idx, qset.Nodup → (∀ x ∈ qset, x < n) → idx ≤ qset.length →
      n + 1 ≤ fuel + idx →
      ∃ fin : List Nat, (∃ ext, fin = qset ++ ext) ∧
        flushAux spawn fuel qset idx = fin.drop idx ∧
        fin.Nodup ∧ (∀ x ∈ fin, x < n) ∧
        ∀ j (hj : j < fin.length), idx ≤ j → ∀ x ∈ spawn (fin.get ⟨j, hj⟩), x ∈ fin := by
  intro fuel
  induction fuel with
  | zero =>
    intro qset idx hnd hb hidx hfuel
    exfalso
    have hlen : qset.length ≤ n := length_le_of_nodup_bounded qset n hnd hb
    omega
  | succ fuel ih =>
    intro qset idx hnd hb hidx hfuel
    by_cases h : idx < qset.length
    · have ht : qset.get ⟨idx, h⟩ = qset.get ⟨idx, h⟩ := rfl
      obtain ⟨ext2, hext2⟩ := foldl_setAdd_append_ext (spawn (qset.get ⟨idx, h⟩)) qset
      have hnd2 : ((spawn (qset.get ⟨idx, h⟩)).foldl setAdd qset).Nodup :=
        foldl_setAdd_nodup _ _ hnd
      have hb2 : ∀ x ∈ (spawn (qset.get ⟨idx, h⟩)).foldl setAdd qset, x < n := by
        intro x hx
        rcases (mem_foldl_setAdd _ _ _).mp hx with hx | hx
        · exact hb x hx
        · exact hsp _ x hx
      have hlen2 : qset.length ≤ ((spawn (qset.get ⟨idx, h⟩)).foldl setAdd qset).length := by
        rw [hext2]
        simp
      have hidx2 : idx + 1 ≤ ((spawn (qset.get ⟨idx, h⟩)).foldl setAdd qset).length := by
        omega
      have hfuel2 : n + 1 ≤ fuel + (idx + 1) := by omega
      obtain ⟨fin, ⟨ext, hfinext⟩, hrun, hfnd, hfb, hcl⟩ :=
        ih ((spawn (qset.get ⟨idx, h⟩)).foldl setAdd qset) (idx + 1) hnd2 hb2 hidx2 hfuel2
      have hfinq : fin = qset ++ (ext2 ++ ext) := by
        rw [hfinext, hext2, List.append_assoc]
      have hidxfin : idx < fin.length := by
        rw [hfinq]
        simp only [List.length_append]
        omega
      have hgetfin : fin.get ⟨idx, hidxfin⟩ = qset.get ⟨idx, h⟩ := by
        simp only [List.get_eq_getElem, hfinq]
        exact List.getElem_append_left h
      refine ⟨fin, ⟨ext2 ++ ext, hfinq⟩, ?_, hfnd, hfb, ?_⟩
      · rw [show flushAux spawn (fuel + 1) qset idx =
            qset.get ⟨idx, h⟩ :: flushAux spawn fuel
              ((spawn (qset.get ⟨idx, h⟩)).foldl setAdd qset) (idx + 1) from by
          simp [flushAux, h]]
        rw [hrun, List.drop_eq_getElem_cons hidxfin]
        simp only [List.get_eq_getElem] at hgetfin
        simp [hgetfin]
      · intro j hj hij x hx
        rcases Nat.lt_or_ge idx j with hlt | hge
        · exact hcl j hj hlt x hx
        · have hji : j = idx := by omega
          have hgeteq : fin.get ⟨j, hj⟩ = qset.get ⟨idx, h⟩ := by
            subst hji
            exact hgetfin
          have hx2 : x ∈ (spawn (qset.get ⟨idx, h⟩)).foldl setAdd qset :=
            (mem_foldl_setAdd _ _ _).mpr (Or.inr (hgeteq ▸ hx))
          rw [hfinext]
          exact List.mem_append.mpr (Or.inl hx2)
    · refine ⟨qset, ⟨[], by simp⟩, ?_, hnd, hb, ?_⟩
      · rw [show flushAux spawn (fuel + 1) qset idx = [] from by simp [flushAux, h]]
        exact (List.drop_eq_nil_of_le (by omega)).symm
      · intro j hj hij
        omega

/-! ## Helper lemmas about traces and dispatch -/

theorem notifsOf_map_notif (l : List Notif) : notifsOf (l.map Event.notif) = l := by
  induction l with
  | nil => rfl
  | cons a rest ih => simp [notifsOf, ih]

theorem notifsOf_providerWrite_cons (fs : FsKind) (p d : Path) (tr : List Event) :
    notifsOf (Event.providerWrite fs p d :: tr) = notifsOf tr := rfl

theorem invokeFileWatchers_not_isDir (env : Env) (s : SysState) (p : Path) (k : EventKind) :
    ∀ n ∈ invokeFileWatchers env s p k, n.isDir = false := by
  intro n hn
  unfold invokeFileWatchers at hn
  rcases hmg : mapGet s.fileWatcherCallbacksMap (env.normalizePath p) with _ | cbs
  · simp [hmg] at hn
  · simp only [hmg] at hn
    obtain ⟨cb, _, rfl⟩ := List.mem_map.mp hn
    rfl

theorem invokeDirectoryWatchers_ignored (env : Env) (s : SysState) (p : Path)
    (h : isIgnoredPath (env.normalizePath p) = true) :
    invokeDirectoryWatchers env s p = [] := by
  unfold invokeDirectoryWatchers
  simp [h]

/-! ## Timer invariant -/

/-- Every token ever scheduled has run, been cancelled, or is still pending. -/
def timerInv (st : TimerState) : Prop :=
  ∀ t ∈ st.scheduled, t ∈ st.ran ∨ t ∈ st.cancelled ∨ t ∈ st.pending

theorem timerStep_inv (st st2 : TimerState) (a : TimerAct)
    (h : timerStep st a = some st2) (hinv : timerInv st) : timerInv st2 := by
  cases a with
  | schedule =>
    simp only [timerStep, Option.some.injEq] at h
    subst h
    intro t ht
    rcases List.mem_append.mp ht with ht | ht
    · rcases hinv t ht with h1 | h1 | h1
      · exact Or.inl h1
      · exact Or.inr (Or.inl h1)
      · exact Or.inr (Or.inr (List.mem_append.mpr (Or.inl h1)))
    · exact Or.inr (Or.inr (List.mem_append.mpr (Or.inr ht)))
  | fire t0 k =>
    simp only [timerStep] at h
    by_cases hp : t0 ∈ st.pending
    · simp only [if_pos hp, Option.some.injEq] at h
      subst h
      intro t ht
      rcases List.mem_append.mp ht with ht | ht
      · rcases hinv t ht with h1 | h1 | h1
        · exact Or.inl (List.mem_append.mpr (Or.inl h1))
        · exact Or.inr (Or.inl h1)
        · by_cases hteq : t = t0
          · exact Or.inl (List.mem_append.mpr (Or.inr (by simp [hteq])))
          · refine Or.inr (Or.inr (List.mem_append.mpr (Or.inl ?_)))
            simp only [List.mem_filter]
            exact ⟨h1, by simpa using hteq⟩
      · exact Or.inr (Or.inr (List.mem_append.mpr (Or.inr ht)))
    · simp [if_neg hp] at h
  | cancel t0 =>
    simp only [timerStep, Option.some.injEq] at h
    subst h
    intro t ht
    rcases hinv t ht with h1 | h1 | h1
    · exact Or.inl h1
    · exact Or.inr (Or.inl (List.mem_append.mpr (Or.inl h1)))
    · by_cases hteq : t = t0
      · exact Or.inr (Or.inl (List.mem_append.mpr (Or.inr (by simp [hteq]))))
      · refine Or.inr (Or.inr ?_)
        simp only [List.mem_filter]
        exact ⟨h1, by simpa using hteq⟩
  | resolveWait =>
    simp only [timerStep] at h
    by_cases hp : st.pending = []
    · simp only [if_pos hp, Option.some.injEq] at h
      subst h
      exact hinv
    · simp [if_neg hp] at h

theorem runTimer_inv (acts : List TimerAct) (st st2 : TimerState)
    (h : runTimer st acts = some st2) (hinv : timerInv st) : timerInv st2 := by
  induction acts generalizing st with
  | nil =>
    simp only [runTimer, Option.some.injEq] at h
    subst h
    exact hinv
  | cons a rest ih =>
    simp only [runTimer] at h
    rcases hstep : timerStep st a with _ | st1
    · simp [hstep] at h
    · simp only [hstep] at h
      exact ih st1 h (timerStep_inv st st1 a hstep hinv)

/-! ## Concrete environments for witnesses and counterexamples -/

/-- A posix environment: paths already normalized, node posix `dirname`, no files on
the passive provider, provider mutations never fail. -/
def envId : Env := ⟨id, posixDirname, fun _ => none, fun _ _ => false⟩

/-- An environment whose provider mutations always fail (e.g. a permission error). -/
def envFail : Env := ⟨id, posixDirname, fun _ => none, fun _ _ => true⟩

/-! ## C2 — write routing -/

/-- **C2.** Write routing is the pure function `getWriteFileSystem` of (mode, path),
consulted independently by `writeFile`, `deleteFile`, `createDirectory` and
`setModifiedTime` (their traces' provider mutation targets exactly the routed provider):
in `readonly` mode no write reaches the real provider, in `write-tsbuildinfo` mode
exactly the paths ending in `.tsbuildinfo` reach it, and in `write-references`
(write-unrestricted) mode every write reaches it. -/
theorem C2_write_routing (env : Env) (mode : FileSystemMode) (s : SysState)
    (p d : Path) (s' : SysState) (tr : List Event) :
    getWriteFileSystem FileSystemMode.readonly p = FsKind.passive ∧
    getWriteFileSystem FileSystemMode.writeReferences p = FsKind.real ∧
    (getWriteFileSystem FileSystemMode.writeTsbuildinfo p = FsKind.real ↔
      tsbuildinfoExt.isSuffixOf p = true) ∧
    (writeFile env mode s p d = Except.ok (s', tr) →
      tr.head? = some (Event.providerWrite (getWriteFileSystem mode p) p d)) ∧
    (deleteFile env mode s p = Except.ok (s', tr) →
      tr.head? = some (Event.providerDelete (getWriteFileSystem mode p) p)) ∧
    (createDirectory env mode s p = Except.ok (s', tr) →
      tr.head? = some (Event.providerCreateDir (getWriteFileSystem mode p) p)) ∧
    (setModifiedTime env mode s p = Except.ok (s', tr) →
      tr.head? = some (Event.providerUpdateTimes (getWriteFileSystem mode p) p)) := by
  refine ⟨rfl, rfl, ?_, ?_, ?_, ?_, ?_⟩
  · cases hs : tsbuildinfoExt.isSuffixOf p <;> simp [getWriteFileSystem, hs]
  · intro h
    cases hf : env.providerFails (getWriteFileSystem mode p) p <;> simp [writeFile, hf] at h
    rw [← h.2]
    rfl
  · intro h
    cases hf : env.providerFails (getWriteFileSystem mode p) p <;> simp [deleteFile, hf] at h
    rw [← h.2]
    rfl
  · intro h
    cases hf : env.providerFails (getWriteFileSystem mode p) p <;>
      simp [createDirectory, hf] at h
    rw [← h.2]
    rfl
  · intro h
    cases hf : env.providerFails (getWriteFileSystem mode p) p <;>
      simp [setModifiedTime, hf] at h
    rw [← h.2]
    rfl

/-- Concrete path ending in the build-metadata extension. -/
def pC2 : Path := String.toList "/p/x.tsbuildinfo"

/-- Concrete data written in the C2 witness. -/
def dC2 : Path := String.toList "x"

/-- Final state of the concrete C2 write. -/
def sC2 : SysState := ⟨[], [], [], [], [(pC2, false)], []⟩

/-- Witness for C2 at a concrete path: the tsbuildinfo path routes to the real provider
in `write-tsbuildinfo` mode, and a readonly-mode write's trace starts with a passive
provider mutation. -/
theorem C2_write_routing_witness :
    getWriteFileSystem FileSystemMode.writeTsbuildinfo pC2 = FsKind.real ∧
    [Event.providerWrite FsKind.passive pC2 dC2].head? =
      some (Event.providerWrite (getWriteFileSystem FileSystemMode.readonly pC2) pC2 dC2) := by
  have h := C2_write_routing envId FileSystemMode.readonly SysState.init pC2 dC2 sC2
    [Event.providerWrite FsKind.passive pC2 dC2]
  exact ⟨(h.2.2.1).mpr (by decide), h.2.2.2.1 (by decide)⟩

/-! ## C7 — size and modified time of unresolved paths -/

/-- Passive provider exposing a directory at `/d` with stat size 4096 and mtime 7. -/
def envC7 : Env := ⟨id, posixDirname,
  fun p => if p = String.toList "/d" then some ⟨false, true, 4096, 7⟩ else none,
  fun _ _ => false⟩

/-- **C7 counterexample.** `/d` does not resolve to a file (it is a directory), yet
`getFileSize` returns the directory's stat size 4096 (not 0) and `getModifiedTime`
returns its mtime (not an absent value), contradicting the claim that every path not
resolving to a file yields size 0 and an absent time. -/
theorem C7_counterexample :
    fileExists envC7 (String.toList "/d") = false ∧
    getFileSize envC7 (String.toList "/d") = 4096 ∧
    ¬ getFileSize envC7 (String.toList "/d") = 0 ∧
    getModifiedTime envC7 (String.toList "/d") = some 7 ∧
    ¬ getModifiedTime envC7 (String.toList "/d") = none := by decide

/-- **C7 amended.** `getFileSize` returns 0 and `getModifiedTime` an absent value
exactly when the passive provider has no stats for the path at all (then neither a
file nor a directory exists there); when stats do exist — including for directories —
the stat size and mtime are returned. Both operations are total (never throw). -/
theorem C7_amended (env : Env) (p : Path) :
    (env.readStats p = none →
      getFileSize env p = 0 ∧ getModifiedTime env p = none ∧
      fileExists env p = false ∧ directoryExists env p = false) ∧
    (∀ st, env.readStats p = some st →
      getFileSize env p = st.size ∧ getModifiedTime env p = some st.mtime) := by
  constructor
  · intro h
    simp [getFileSize, getModifiedTime, fileExists, directoryExists, h]
  · intro st h
    simp [getFileSize, getModifiedTime, h]

/-- Witness for the amended C7 at a path with no stats and at the `/d` directory. -/
theorem C7_amended_witness :
    (getFileSize envC7 (String.toList "/m") = 0 ∧
      getModifiedTime envC7 (String.toList "/m") = none) ∧
    getFileSize envC7 (String.toList "/d") = 4096 := by
  have h1 := (C7_amended envC7 (String.toList "/m")).1 (by decide)
  have h2 := (C7_amended envC7 (String.toList "/d")).2 ⟨false, true, 4096, 7⟩ (by decide)
  exact ⟨⟨h1.1, h1.2.1⟩, h2.1⟩

/-! ## C8 — provider mutation before notification, failures propagate -/

/-- **C8.** For `writeFile` and `deleteFile`: when the routed provider mutation fails,
the failure propagates unmasked (`Except.error`) and no notification is synthesized —
no successor state or trace is produced, so all watcher registries and the deleted
tracker are left as they were. When the mutation succeeds, the trace begins with the
provider mutation and every watcher notification comes strictly after it. -/
theorem C8_mutation_before_notification (env : Env) (mode : FileSystemMode)
    (s : SysState) (p d : Path) :
    (env.providerFails (getWriteFileSystem mode p) p = true →
      writeFile env mode s p d = Except.error () ∧
      deleteFile env mode s p = Except.error ()) ∧
    (env.providerFails (getWriteFileSystem mode p) p = false →
      (∃ (s2 : SysState) (ns : List Notif), writeFile env mode s p d = Except.ok
        (s2, Event.providerWrite (getWriteFileSystem mode p) p d :: ns.map Event.notif)) ∧
      (∃ (s2 : SysState) (ns : List Notif), deleteFile env mode s p = Except.ok
        (s2, Event.providerDelete (getWriteFileSystem mode p) p :: ns.map Event.notif))) := by
  constructor
  · intro hf
    constructor
    · simp [writeFile, hf]
    · simp [deleteFile, hf]
  · intro hf
    constructor
    · exact ⟨(invokeFileChanged env s p).1, (invokeFileChanged env s p).2,
        by simp [writeFile, hf]⟩
    · exact ⟨(invokeFileDeleted env s p).1, (invokeFileDeleted env s p).2,
        by simp [deleteFile, hf]⟩

/-- Concrete path for the C8 witness. -/
def pC8 : Path := String.toList "/p/y.ts"

/-- Witness for C8: with a failing provider the write propagates the error; with a
healthy provider the trace starts with the routed provider mutation. -/
theorem C8_mutation_before_notification_witness :
    writeFile envFail FileSystemMode.writeReferences SysState.init pC8 dC2 =
      Except.error () ∧
    (∃ (s2 : SysState) (ns : List Notif), writeFile envId FileSystemMode.writeReferences SysState.init pC8 dC2 =
      Except.ok (s2, Event.providerWrite (getWriteFileSystem FileSystemMode.writeReferences pC8)
        pC8 dC2 :: ns.map Event.notif)) := by
  refine ⟨((C8_mutation_before_notification envFail FileSystemMode.writeReferences
    SysState.init pC8 dC2).1 (by decide)).1, ?_⟩
  exact ((C8_mutation_before_notification envId FileSystemMode.writeReferences
    SysState.init pC8 dC2).2 (by decide)).1

/-! ## C9 — `waitForQueued` resolves only when the timer set is drained -/

/-- **C9.** In any execution of the virtual-timer system from the initial state, the
`waitForQueued` resolution step is enabled only in states whose Pending Timer Set is
empty, and in such a state every callback ever scheduled — including callbacks
scheduled re-entrantly by other callbacks during the wait — has either run or been
cancelled. -/
theorem C9_waitForQueued_drains (acts : List TimerAct) (st st' : TimerState)
    (hrun : runTimer TimerState.init acts = some st)
    (hres : timerStep st TimerAct.resolveWait = some st') :
    st.pending = [] ∧ ∀ t ∈ st.scheduled, t ∈ st.ran ∨ t ∈ st.cancelled := by
  have hpend : st.pending = [] := by
    by_cases hp : st.pending = []
    · exact hp
    · simp [timerStep, hp] at hres
  have hinv : timerInv st := by
    refine runTimer_inv acts TimerState.init st hrun ?_
    intro t ht
    simp [TimerState.init] at ht
  refine ⟨hpend, fun t ht => ?_⟩
  rcases hinv t ht with h1 | h1 | h1
  · exact Or.inl h1
  · exact Or.inr h1
  · rw [hpend] at h1
    simp at h1

/-- The concrete C9 run: schedule two callbacks; the first, when fired, schedules a
third; all three fire; then the drain check is enabled. -/
def actsC9 : List TimerAct :=
  [TimerAct.schedule, TimerAct.schedule, TimerAct.fire 0 1, TimerAct.fire 1 0,
    TimerAct.fire 2 0]

/-- The state reached by `actsC9`. -/
def stC9 : TimerState := ⟨[], [0, 1, 2], [0, 1, 2], [], false, 3⟩

/-- Witness for C9: after the concrete run the pending set is empty and each of the
three scheduled callbacks (including the re-entrantly scheduled one) has run. -/
theorem C9_waitForQueued_drains_witness :
    stC9.pending = [] ∧
    (0 ∈ stC9.ran ∨ 0 ∈ stC9.cancelled) ∧
    (2 ∈ stC9.ran ∨ 2 ∈ stC9.cancelled) := by
  have h := C9_waitForQueued_drains actsC9 stC9 { stC9 with resolved := true }
    (by decide) (by decide)
  exact ⟨h.1, h.2 0 (by decide), h.2 2 (by decide)⟩

/-! ## C3 — the queued-change flush and re-entrant additions -/

/-- Thunk effect for the C3 scenario: running thunk 0 adds thunk 1 to the queued set. -/
def spawnC3 : Nat → List Nat := fun t => if t = 0 then [1] else []

/-- **C3 counterexample.** Flushing a queued set holding thunk 0, whose invocation adds
thunk 1 to the set, invokes thunk 1 in that same flush (`Set.forEach` visits values
added during iteration) and leaves it out of the queued set afterwards (`clear()`),
contradicting the claim that re-entrant additions do not run in the same flush and
remain queued for the next one. -/
theorem C3_counterexample :
    invokeQueuedChanged spawnC3 2 [0] = ([0, 1], []) ∧
    1 ∈ (invokeQueuedChanged spawnC3 2 [0]).1 ∧
    ¬ 1 ∈ (invokeQueuedChanged spawnC3 2 [0]).2 := by decide

/-- **C3 amended.** The flush invokes every thunk in the queued set at flush start, and
every thunk a re-entrant reaction adds during the flush is invoked in that same flush as
well; afterwards the set is cleared entirely, so nothing (re-entrant additions included)
remains queued for the next flush. Stated for thunk identifiers bounded by `n` (a
JavaScript `Set` holds finitely many distinct values) with a duplicate-free queued set
(a `Set` never holds duplicates). -/
theorem C3_amended (spawn : Nat → List Nat) (n : Nat) (qset : List Nat)
    (hsp : ∀ t, ∀ x ∈ spawn t, x < n) (hnd : qset.Nodup) (hb : ∀ x ∈ qset, x < n) :
    (∀ t ∈ qset, t ∈ (invokeQueuedChanged spawn n qset).1) ∧
    (∀ t ∈ (invokeQueuedChanged spawn n qset).1, ∀ x ∈ spawn t,
      x ∈ (invokeQueuedChanged spawn n qset).1) ∧
    (invokeQueuedChanged spawn n qset).2 = [] := by
  obtain ⟨fin, ⟨ext, hfe⟩, hrun, hfnd, hfb, hcl⟩ :=
    flushAux_spec spawn n hsp (n + 1) qset 0 hnd hb (Nat.zero_le _) (by omega)
  have hrun0 : (invokeQueuedChanged spawn n qset).1 = fin := by
    simpa [invokeQueuedChanged, flushRun] using hrun
  refine ⟨?_, ?_, rfl⟩
  · intro t ht
    rw [hrun0, hfe]
    exact List.mem_append.mpr (Or.inl ht)
  · intro t ht x hx
    rw [hrun0] at ht ⊢
    obtain ⟨j, hget⟩ := List.mem_iff_get.mp ht
    exact hcl j.1 j.2 (Nat.zero_le _) x (by rw [← hget] at hx; exact hx)

/-- Witness for the amended C3 on the concrete scenario: both the initially queued
thunk 0 and the re-entrantly added thunk 1 run in the one flush, and the set ends
empty. -/
theorem C3_amended_witness :
    0 ∈ (invokeQueuedChanged spawnC3 2 [0]).1 ∧
    1 ∈ (invokeQueuedChanged spawnC3 2 [0]).1 ∧
    (invokeQueuedChanged spawnC3 2 [0]).2 = [] := by
  have hsp : ∀ t, ∀ x ∈ spawnC3 t, x < 2 := by
    intro t x hx
    by_cases ht : t = 0
    · simp [spawnC3, ht] at hx
      omega
    · simp [spawnC3, ht] at hx
  have h := C3_amended spawnC3 2 [0] hsp (by simp) (by simp)
  exact ⟨h.1 0 (by simp), h.2.1 0 (h.1 0 (by simp)) 1 (by simp [spawnC3]), h.2.2⟩

/-! ## C4 — closing a watcher registration -/

/-- The C4 path. -/
def pC4 : Path := String.toList "/p"

/-- A registry on which the identical callback 5 is registered twice on `/p`. -/
def mC4 : List (Path × List CbId) :=
  createWatcher envId (createWatcher envId [] pC4 5) pC4 5

/-- **C4 counterexample.** With the identical callback registered twice on `/p`,
closing one of the two handles removes both instances (`filter` drops every
reference-equal entry) and deletes the `/p` registry entry entirely — not "exactly
one callback instance" as claimed (which would leave a one-element list). -/
theorem C4_counterexample :
    mapGet mC4 pC4 = some [5, 5] ∧
    closeWatcher envId mC4 pC4 5 = [] ∧
    mapGet (closeWatcher envId mC4 pC4 5) pC4 = none ∧
    ¬ (mapGetD (closeWatcher envId mC4 pC4 5) pC4 []).length = 1 := by decide

/-- Unfolding of the `close` handle logic. -/
theorem closeWatcher_eq (env : Env) (m : List (Path × List CbId)) (path : Path)
    (cb : CbId) :
    closeWatcher env m path cb =
      if ((mapGetD m (env.normalizePath path) []).filter
            (fun w => decide ¬(w = cb))).length > 0
      then mapSet m (env.normalizePath path)
        ((mapGetD m (env.normalizePath path) []).filter (fun w => decide ¬(w = cb)))
      else mapDelete m (env.normalizePath path) := rfl

/-- **C4 amended.** Closing a registration removes every instance identical
(reference-equal) to its callback from the path's list — exactly one instance when the
callback was registered once, but all of them when the identical function was
registered several times; if the remaining list is empty the path's entry is removed
entirely, so no empty entries remain; and closing a handle twice, or closing a watcher
whose callback is not currently registered, is a silent no-op. (`hnd`: a JavaScript
`Map` has no duplicate keys; `hne`: registry entries are never empty lists, which holds
for every registry the system builds.) -/
theorem C4_amended (env : Env) (m : List (Path × List CbId)) (path : Path) (cb : CbId)
    (hnd : (m.map Prod.fst).Nodup) :
    (mapGetD (closeWatcher env m path cb) (env.normalizePath path) [] =
      (mapGetD m (env.normalizePath path) []).filter (fun w => decide ¬(w = cb))) ∧
    ((mapGetD m (env.normalizePath path) []).filter (fun w => decide ¬(w = cb)) = [] →
      mapGet (closeWatcher env m path cb) (env.normalizePath path) = none) ∧
    (∀ k, ¬(k = env.normalizePath path) →
      mapGet (closeWatcher env m path cb) k = mapGet m k) ∧
    closeWatcher env (closeWatcher env m path cb) path cb = closeWatcher env m path cb ∧
    (¬ cb ∈ mapGetD m (env.normalizePath path) [] →
      ¬ mapGet m (env.normalizePath path) = some [] →
      closeWatcher env m path cb = m) := by
  have hfs : ∀ l : List CbId, (l.filter (fun w => decide ¬(w = cb))).filter
      (fun w => decide ¬(w = cb)) = l.filter (fun w => decide ¬(w = cb)) := by
    intro l
    refine List.filter_eq_self.mpr ?_
    intro a ha
    exact (List.mem_filter.mp ha).2
  refine ⟨?_, ?_, ?_, ?_, ?_⟩
  · by_cases hrem : ((mapGetD m (env.normalizePath path) []).filter
        (fun w => decide ¬(w = cb))).length > 0
    · rw [closeWatcher_eq, if_pos hrem]
      simp [mapGetD, mapGet_mapSet_self]
    · have hrem0 : (mapGetD m (env.normalizePath path) []).filter
          (fun w => decide ¬(w = cb)) = [] :=
        List.length_eq_zero.mp (Nat.eq_zero_of_not_pos hrem)
      rw [closeWatcher_eq, if_neg hrem, hrem0, mapGetD,
        mapGet_mapDelete_self m _ hnd]
      rfl
  · intro hrem0
    rw [closeWatcher_eq, if_neg (by rw [hrem0]; simp)]
    exact mapGet_mapDelete_self m _ hnd
  · intro k hk
    by_cases hrem : ((mapGetD m (env.normalizePath path) []).filter
        (fun w => decide ¬(w = cb))).length > 0
    · rw [closeWatcher_eq, if_pos hrem]
      exact mapGet_mapSet_ne m _ k _ hk
    · rw [closeWatcher_eq, if_neg hrem]
      exact mapGet_mapDelete_ne m _ k hk
  · by_cases hrem : ((mapGetD m (env.normalizePath path) []).filter
        (fun w => decide ¬(w = cb))).length > 0
    · have hm1 : closeWatcher env m path cb = mapSet m (env.normalizePath path)
          ((mapGetD m (env.normalizePath path) []).filter (fun w => decide ¬(w = cb))) := by
        rw [closeWatcher_eq, if_pos hrem]
      have hget1 : mapGetD (mapSet m (env.normalizePath path)
          ((mapGetD m (env.normalizePath path) []).filter (fun w => decide ¬(w = cb))))
          (env.normalizePath path) [] =
          (mapGetD m (env.normalizePath path) []).filter (fun w => decide ¬(w = cb)) := by
        simp [mapGetD, mapGet_mapSet_self]
      rw [hm1, closeWatcher_eq, hget1, hfs, if_pos hrem, mapSet_mapSet]
    · have hm1 : closeWatcher env m path cb = mapDelete m (env.normalizePath path) := by
        rw [closeWatcher_eq, if_neg hrem]
      have hnone : mapGet (mapDelete m (env.normalizePath path))
          (env.normalizePath path) = none := mapGet_mapDelete_self m _ hnd
      have hget1 : mapGetD (mapDelete m (env.normalizePath path))
          (env.normalizePath path) [] = ([] : List CbId) := by
        simp [mapGetD, hnone]
      rw [hm1, closeWatcher_eq, hget1]
      simp only [List.filter_nil, List.length_nil, gt_iff_lt, Nat.lt_irrefl, if_false]
      exact mapDelete_eq_self _ _ hnone
  · intro hnotin hne
    have hrem : (mapGetD m (env.normalizePath path) []).filter
        (fun w => decide ¬(w = cb)) = mapGetD m (env.normalizePath path) [] := by
      refine List.filter_eq_self.mpr ?_
      intro a ha
      simp only [decide_eq_true_eq]
      intro hac
      exact hnotin (hac ▸ ha)
    rcases hget : mapGet m (env.normalizePath path) with _ | v
    · have hold : mapGetD m (env.normalizePath path) [] = [] := by
        simp [mapGetD, hget]
      rw [closeWatcher_eq, if_neg (by rw [hrem, hold]; simp)]
      exact mapDelete_eq_self m _ hget
    · have hvne : ¬ v = [] := fun hv => hne (hv ▸ hget)
      have hold : mapGetD m (env.normalizePath path) [] = v := by
        simp [mapGetD, hget]
      have hpos : ((mapGetD m (env.normalizePath path) []).filter
          (fun w => decide ¬(w = cb))).length > 0 := by
        rw [hrem, hold]
        rcases v with _ | ⟨a, rest⟩
        · exact absurd rfl hvne
        · simp
      rw [closeWatcher_eq, if_pos hpos, hrem, hold]
      exact mapSet_eq_self m _ v hget

/-- A registry with two distinct callbacks 5 and 6 on `/p`. -/
def mC4w : List (Path × List CbId) := [(pC4, [5, 6])]

/-- Witness for the amended C4: closing callback 5 leaves exactly `[6]` on `/p`, and a
second close of the same handle changes nothing. -/
theorem C4_amended_witness :
    mapGetD (closeWatcher envId mC4w pC4 5) pC4 [] = [6] ∧
    closeWatcher envId (closeWatcher envId mC4w pC4 5) pC4 5 =
      closeWatcher envId mC4w pC4 5 := by
  have h := C4_amended envId mC4w pC4 5 (by decide)
  refine ⟨?_, h.2.2.2.1⟩
  rw [show (envId.normalizePath pC4) = pC4 from rfl] at h
  rw [h.1]
  decide

/-! ## C1 — write classification and notification synthesis -/

/-- The C1 path, with a file watcher registered on it. -/
def pC1 : Path := String.toList "/r/a.txt"

/-- State with file watcher 1 on `/r/a.txt` and directory watcher 2 on `/r`; nothing
has ever been written or deleted. -/
def sC1 : SysState :=
  ⟨[(pC1, [1])], [(String.toList "/r", [2])], [], [], [], []⟩

/-- The trace of the first-ever write to `/r/a.txt` in `sC1`. -/
def trC1 : List Event :=
  [Event.providerWrite FsKind.passive pC1 dC2,
    Event.notif (Notif.file 1 pC1 EventKind.changed)]

/-- **C1 counterexample.** The first-ever write to `/r/a.txt` — a path never written,
deleted or marked in the tracker, but with a watcher registered on exactly that path —
fires `changed` (not `created`) to that watcher, fires no directory watcher for the
parent `/r` (watcher 2 stays silent), and leaves the deleted tracker untouched. This
contradicts the claim that every write fires directory watchers for the parent and
marks the path not deleted, and that a never-before-seen path's write fires `created`
to watchers of that exact path. -/
theorem C1_counterexample :
    writeFile envId FileSystemMode.readonly sC1 pC1 dC2 = Except.ok (sC1, trC1) ∧
    ¬ Event.notif (Notif.dir (String.toList "/r") 2 pC1) ∈ trC1 ∧
    ¬ Event.notif (Notif.file 1 pC1 EventKind.created) ∈ trC1 ∧
    (writeFile envId FileSystemMode.readonly sC1 pC1 dC2).toOption.map
      (fun r => r.1.deletedFiles) = some [] := by decide

/-- **C1 amended.** `writeFile` first commits the data to the routed provider, then
classifies the event: *created* iff the deleted tracker records the path as deleted or
the path has no entry in the file-watcher registry, *changed* otherwise. Only in the
*created* case does it fire directory watchers for the parent and mark the path not
deleted in the tracker (after firing the path's file watchers with `created`); in the
*changed* case it fires only the file watchers registered on the path, with `changed`,
leaving the tracker and all directory watchers untouched. Hence a first write to a
watched, never-deleted path fires `changed`, and `created` reaches a path's watchers
only when the tracker had recorded the path as deleted. -/
theorem C1_amended (env : Env) (mode : FileSystemMode) (s : SysState) (p d : Path)
    (hok : env.providerFails (getWriteFileSystem mode p) p = false) :
    (mapGetD s.deletedFiles (env.normalizePath p) false = true ∨
        mapHas s.fileWatcherCallbacksMap (env.normalizePath p) = false →
      writeFile env mode s p d = Except.ok
        ({ s with deletedFiles := mapSet s.deletedFiles (env.normalizePath p) false },
          Event.providerWrite (getWriteFileSystem mode p) p d ::
            (invokeFileWatchers env s p EventKind.created ++
              invokeDirectoryWatchers env s (env.normalizePath p)).map Event.notif)) ∧
    (mapGetD s.deletedFiles (env.normalizePath p) false = false ∧
        mapHas s.fileWatcherCallbacksMap (env.normalizePath p) = true →
      writeFile env mode s p d = Except.ok
        (s, Event.providerWrite (getWriteFileSystem mode p) p d ::
          (invokeFileWatchers env s p EventKind.changed).map Event.notif) ∧
      ∀ n ∈ notifsOf (Event.providerWrite (getWriteFileSystem mode p) p d ::
          (invokeFileWatchers env s p EventKind.changed).map Event.notif),
        n.isDir = false) := by
  constructor
  · intro hcr
    have hcond : (mapGetD s.deletedFiles (env.normalizePath p) false ||
        !(mapHas s.fileWatcherCallbacksMap (env.normalizePath p))) = true := by
      rcases hcr with h | h <;> simp [h]
    simp [writeFile, hok, invokeFileChanged, hcond]
  · rintro ⟨h1, h2⟩
    have hcond : (mapGetD s.deletedFiles (env.normalizePath p) false ||
        !(mapHas s.fileWatcherCallbacksMap (env.normalizePath p))) = false := by
      simp [h1, h2]
    constructor
    · simp [writeFile, hok, invokeFileChanged, hcond]
    · intro nn hn
      rw [notifsOf_providerWrite_cons, notifsOf_map_notif] at hn
      exact invokeFileWatchers_not_isDir env s p _ nn hn

/-- State for the C1 amended witness: `/q` is marked deleted in the tracker and
watched by callback 7. -/
def sC1w : SysState :=
  ⟨[(String.toList "/q", [7])], [], [], [], [(String.toList "/q", true)], []⟩

/-- The post-write state expected in the C1 amended witness: the tracker now records
`/q` as not deleted. -/
def sC1w2 : SysState :=
  { sC1w with
    deletedFiles := mapSet sC1w.deletedFiles (envId.normalizePath (String.toList "/q")) false }

/-- The trace expected in the C1 amended witness. -/
def trC1w : List Event :=
  Event.providerWrite (getWriteFileSystem FileSystemMode.readonly (String.toList "/q"))
      (String.toList "/q") dC2 ::
    (invokeFileWatchers envId sC1w (String.toList "/q") EventKind.created ++
      invokeDirectoryWatchers envId sC1w
        (envId.normalizePath (String.toList "/q"))).map Event.notif

theorem C1_amended_witness :
    writeFile envId FileSystemMode.readonly sC1w (String.toList "/q") dC2 =
      Except.ok (sC1w2, trC1w) := by
  exact (C1_amended envId FileSystemMode.readonly sC1w (String.toList "/q") dC2
    (by decide)).1 (by decide)

/-! ## C5 — ignore-list filtering suppresses only directory notifications -/

theorem notifsOf_append (a b : List Event) :
    notifsOf (a ++ b) = notifsOf a ++ notifsOf b := by
  induction a with
  | nil => rfl
  | cons e rest ih => cases e <;> simp [notifsOf, ih]

theorem notifsOf_providerDelete_cons (fs : FsKind) (p : Path) (tr : List Event) :
    notifsOf (Event.providerDelete fs p :: tr) = notifsOf tr := rfl

theorem notifsOf_providerCreateDir_cons (fs : FsKind) (p : Path) (tr : List Event) :
    notifsOf (Event.providerCreateDir fs p :: tr) = notifsOf tr := rfl

theorem notifsOf_providerUpdateTimes_cons (fs : FsKind) (p : Path) (tr : List Event) :
    notifsOf (Event.providerUpdateTimes fs p :: tr) = notifsOf tr := rfl

/-- The notification list produced by `invokeFileChanged`, branch by branch. -/
theorem invokeFileChanged_snd (env : Env) (s : SysState) (p : Path) :
    (invokeFileChanged env s p).2 =
      if (mapGetD s.deletedFiles (env.normalizePath p) false ||
          !(mapHas s.fileWatcherCallbacksMap (env.normalizePath p))) = true
      then invokeFileWatchers env s p EventKind.created ++
        invokeDirectoryWatchers env s (env.normalizePath p)
      else invokeFileWatchers env s p EventKind.changed := by
  simp only [invokeFileChanged]
  by_cases hc : (mapGetD s.deletedFiles (env.normalizePath p) false ||
      !(mapHas s.fileWatcherCallbacksMap (env.normalizePath p))) = true
  · rw [if_pos hc, if_pos hc]
  · rw [if_neg hc, if_neg hc]

/-- The notification list produced by `invokeFileDeleted`, branch by branch. -/
theorem invokeFileDeleted_snd (env : Env) (s : SysState) (p : Path) :
    (invokeFileDeleted env s p).2 =
      if (!(mapGetD s.deletedFiles (env.normalizePath p) false)) = true
      then invokeFileWatchers env s p EventKind.deleted ++
        invokeDirectoryWatchers env s p
      else [] := by
  simp only [invokeFileDeleted]
  by_cases hc : (!(mapGetD s.deletedFiles (env.normalizePath p) false)) = true
  · rw [if_pos hc, if_pos hc]
  · rw [if_neg hc, if_neg hc]

/-- **C5.** For every mutating operation (`writeFile`, `deleteFile`, `createDirectory`,
`setModifiedTime`) on a path whose normalized form contains a substring of the fixed
ignore list (`/node_modules/.`, `/.git`, `/.#`), no directory-watcher callback —
recursive or non-recursive — is invoked (every synthesized notification is a file
notification), while the file watchers registered on that exact path still fire
normally, exactly as `invokeFileWatchers` dictates for the operation's event kind.
(`hidem`: provider path normalization is idempotent.) -/
theorem C5_ignored_suppression (env : Env) (mode : FileSystemMode) (s : SysState)
    (p d : Path)
    (hidem : env.normalizePath (env.normalizePath p) = env.normalizePath p)
    (hign : isIgnoredPath (env.normalizePath p) = true) :
    (∀ s' tr, writeFile env mode s p d = Except.ok (s', tr) →
      (∀ n ∈ notifsOf tr, n.isDir = false) ∧
      (notifsOf tr = invokeFileWatchers env s p EventKind.created ∨
        notifsOf tr = invokeFileWatchers env s p EventKind.changed)) ∧
    (∀ s' tr, deleteFile env mode s p = Except.ok (s', tr) →
      (∀ n ∈ notifsOf tr, n.isDir = false) ∧
      (notifsOf tr = invokeFileWatchers env s p EventKind.deleted ∨
        notifsOf tr = [])) ∧
    (∀ s' tr, createDirectory env mode s p = Except.ok (s', tr) → notifsOf tr = []) ∧
    (∀ s' tr, setModifiedTime env mode s p = Except.ok (s', tr) →
      notifsOf tr = invokeFileWatchers env s p EventKind.changed) := by
  have hdw1 : invokeDirectoryWatchers env s p = [] :=
    invokeDirectoryWatchers_ignored env s p hign
  have hdw2 : invokeDirectoryWatchers env s (env.normalizePath p) = [] := by
    refine invokeDirectoryWatchers_ignored env s _ ?_
    rw [hidem]
    exact hign
  refine ⟨?_, ?_, ?_, ?_⟩
  · intro s' tr h
    cases hf : env.providerFails (getWriteFileSystem mode p) p <;>
      simp [writeFile, hf] at h
    have htr : tr = Event.providerWrite (getWriteFileSystem mode p) p d ::
        (invokeFileChanged env s p).2.map Event.notif := h.2.symm
    subst htr
    rw [notifsOf_providerWrite_cons, notifsOf_map_notif, invokeFileChanged_snd]
    split
    · rw [hdw2, List.append_nil]
      exact ⟨invokeFileWatchers_not_isDir env s p _, Or.inl rfl⟩
    · exact ⟨invokeFileWatchers_not_isDir env s p _, Or.inr rfl⟩
  · intro s' tr h
    cases hf : env.providerFails (getWriteFileSystem mode p) p <;>
      simp [deleteFile, hf] at h
    have htr : tr = Event.providerDelete (getWriteFileSystem mode p) p ::
        (invokeFileDeleted env s p).2.map Event.notif := h.2.symm
    subst htr
    rw [notifsOf_providerDelete_cons, notifsOf_map_notif, invokeFileDeleted_snd]
    split
    · rw [hdw1, List.append_nil]
      exact ⟨invokeFileWatchers_not_isDir env s p _, Or.inl rfl⟩
    · exact ⟨by intro n hn; simp at hn, Or.inr rfl⟩
  · intro s' tr h
    cases hf : env.providerFails (getWriteFileSystem mode p) p <;>
      simp [createDirectory, hf] at h
    have htr : tr = Event.providerCreateDir (getWriteFileSystem mode p) p ::
        (invokeDirectoryWatchers env s p).map Event.notif := h.2.symm
    subst htr
    rw [notifsOf_providerCreateDir_cons, notifsOf_map_notif, hdw1]
  · intro s' tr h
    cases hf : env.providerFails (getWriteFileSystem mode p) p <;>
      simp [setModifiedTime, hf] at h
    have htr : tr = Event.providerUpdateTimes (getWriteFileSystem mode p) p ::
        ((invokeDirectoryWatchers env s p).map Event.notif ++
          (invokeFileWatchers env s p EventKind.changed).map Event.notif) := h.2.symm
    subst htr
    rw [notifsOf_providerUpdateTimes_cons, notifsOf_append, notifsOf_map_notif,
      notifsOf_map_notif, hdw1, List.nil_append]

/-- An ignored path (contains `/node_modules/.`), with a file watcher on it and a
directory watcher on its parent. -/
def pC5 : Path := String.toList "/w/node_modules/.cache/x"

/-- State for the C5 witness. -/
def sC5 : SysState :=
  ⟨[(pC5, [1])], [(String.toList "/w/node_modules/.cache", [2])], [], [], [], []⟩

/-- The trace of the C5 witness write: only the file watcher fires. -/
def trC5 : List Event :=
  [Event.providerWrite FsKind.passive pC5 dC2,
    Event.notif (Notif.file 1 pC5 EventKind.changed)]

/-- Witness for C5: writing the ignored path notifies exactly the file watchers (here
with `changed`), and touching it synthesizes exactly the `changed` file notification —
watcher 2 on the parent directory never fires. -/
theorem C5_ignored_suppression_witness :
    (notifsOf trC5 = invokeFileWatchers envId sC5 pC5 EventKind.created ∨
      notifsOf trC5 = invokeFileWatchers envId sC5 pC5 EventKind.changed) ∧
    notifsOf [Event.providerUpdateTimes FsKind.passive pC5,
        Event.notif (Notif.file 1 pC5 EventKind.changed)] =
      invokeFileWatchers envId sC5 pC5 EventKind.changed := by
  have h := C5_ignored_suppression envId FileSystemMode.readonly sC5 pC5 dC2
    rfl (by decide)
  exact ⟨(h.1 sC5 trC5 (by decide)).2,
    h.2.2.2 sC5 [Event.providerUpdateTimes FsKind.passive pC5,
      Event.notif (Notif.file 1 pC5 EventKind.changed)] (by decide)⟩

/-! ## C6 — non-recursive versus recursive directory watcher scope -/

/-- **C6.** When directory notifications are dispatched for a (non-ignored) changed
path, a non-recursive directory watcher registered under key `d` fires iff `d` equals
the changed path's immediate parent directory (`dirname` of the normalized path), and
a recursive watcher registered under root `r` fires iff the parent directory equals
`r` or starts with `r` followed by a `/` path separator at position `r.length`.
(`hnd`: a JavaScript `Map` has no duplicate keys.) -/
theorem C6_directory_watch_scope (env : Env) (s : SysState) (p k : Path) (cb : CbId)
    (hign : isIgnoredPath (env.normalizePath p) = false)
    (hnd : (s.recursiveDirectoryWatcherCallbacksMap.map Prod.fst).Nodup) :
    (Notif.dir k cb (forwardSlash (env.normalizePath p)) ∈
        invokeDirectoryWatchers env s p ↔
      k = env.dirname (env.normalizePath p) ∧
        cb ∈ mapGetD s.directoryWatcherCallbacksMap
          (env.dirname (env.normalizePath p)) []) ∧
    (Notif.rdir k cb (forwardSlash (env.normalizePath p)) ∈
        invokeDirectoryWatchers env s p ↔
      cb ∈ mapGetD s.recursiveDirectoryWatcherCallbacksMap k [] ∧
        (k = env.dirname (env.normalizePath p) ∨
          (k.isPrefixOf (env.dirname (env.normalizePath p)) = true ∧
            (forwardSlash (env.dirname (env.normalizePath p))).get? k.length =
              some '/'))) := by
  have hsplit : invokeDirectoryWatchers env s p =
      (match mapGet s.directoryWatcherCallbacksMap (env.dirname (env.normalizePath p)) with
        | some cbs => cbs.map (fun c => Notif.dir (env.dirname (env.normalizePath p)) c
            (forwardSlash (env.normalizePath p)))
        | none => []) ++
      s.recursiveDirectoryWatcherCallbacksMap.flatMap (fun entry =>
        if entry.1 = env.dirname (env.normalizePath p) ∨
            (entry.1.isPrefixOf (env.dirname (env.normalizePath p)) ∧
              (forwardSlash (env.dirname (env.normalizePath p))).get? entry.1.length =
                some '/')
        then entry.2.map (fun c => Notif.rdir entry.1 c (forwardSlash (env.normalizePath p)))
        else []) := by
    simp only [invokeDirectoryWatchers]
    rw [if_neg (by simp [hign])]
  constructor
  · rw [hsplit]
    rw [List.mem_append]
    constructor
    · rintro (hA | hB)
      · rcases hget : mapGet s.directoryWatcherCallbacksMap
            (env.dirname (env.normalizePath p)) with _ | cbs
        · rw [hget] at hA
          simp at hA
        · rw [hget] at hA
          obtain ⟨c, hc, heq⟩ := List.mem_map.mp hA
          cases heq
          exact ⟨rfl, by simp [mapGetD, hget, hc]⟩
      · exfalso
        obtain ⟨entry, hent, hxin⟩ := List.mem_flatMap.mp hB
        by_cases hcnd : entry.1 = env.dirname (env.normalizePath p) ∨
            (entry.1.isPrefixOf (env.dirname (env.normalizePath p)) ∧
              (forwardSlash (env.dirname (env.normalizePath p))).get? entry.1.length =
                some '/')
        · rw [if_pos hcnd] at hxin
          obtain ⟨c, hc, heq⟩ := List.mem_map.mp hxin
          cases heq
        · rw [if_neg hcnd] at hxin
          simp at hxin
    · rintro ⟨rfl, hmem⟩
      left
      rcases hget : mapGet s.directoryWatcherCallbacksMap
          (env.dirname (env.normalizePath p)) with _ | cbs
      · simp only [mapGetD, hget] at hmem
        simp at hmem
      · simp only [mapGetD, hget, Option.getD_some] at hmem
        exact List.mem_map.mpr ⟨cb, hmem, rfl⟩
  · rw [hsplit]
    rw [List.mem_append]
    constructor
    · rintro (hA | hB)
      · exfalso
        rcases hget : mapGet s.directoryWatcherCallbacksMap
            (env.dirname (env.normalizePath p)) with _ | cbs
        · rw [hget] at hA
          simp at hA
        · rw [hget] at hA
          obtain ⟨c, hc, heq⟩ := List.mem_map.mp hA
          cases heq
      · obtain ⟨entry, hent, hxin⟩ := List.mem_flatMap.mp hB
        by_cases hcnd : entry.1 = env.dirname (env.normalizePath p) ∨
            (entry.1.isPrefixOf (env.dirname (env.normalizePath p)) ∧
              (forwardSlash (env.dirname (env.normalizePath p))).get? entry.1.length =
                some '/')
        · rw [if_pos hcnd] at hxin
          obtain ⟨c, hc, heq⟩ := List.mem_map.mp hxin
          obtain ⟨hk, hcb, -⟩ := Notif.rdir.inj heq
          subst hk
          subst hcb
          have hget : mapGet s.recursiveDirectoryWatcherCallbacksMap entry.1 =
              some entry.2 := mapGet_eq_some_of_mem _ _ _ hnd (by
            obtain ⟨a, b⟩ := entry
            exact hent)
          refine ⟨by simp [mapGetD, hget, hc], ?_⟩
          rcases hcnd with hc1 | ⟨hc2, hc3⟩
          · exact Or.inl hc1
          · exact Or.inr ⟨by simpa using hc2, hc3⟩
        · rw [if_neg hcnd] at hxin
          simp at hxin
    · rintro ⟨hmem, hcnd⟩
      right
      rcases hget : mapGet s.recursiveDirectoryWatcherCallbacksMap k with _ | cbs
      · simp only [mapGetD, hget] at hmem
        simp at hmem
      · simp only [mapGetD, hget, Option.getD_some] at hmem
        refine List.mem_flatMap.mpr ⟨(k, cbs), mem_of_mapGet_eq_some _ _ _ hget, ?_⟩
        rw [if_pos (by
          rcases hcnd with hc1 | ⟨hc2, hc3⟩
          · exact Or.inl hc1
          · exact Or.inr ⟨by simpa using hc2, hc3⟩)]
        exact List.mem_map.mpr ⟨cb, hmem, rfl⟩

/-- The C6 path `/root/a/b.txt`. -/
def pC6 : Path := String.toList "/root/a/b.txt"

/-- State with a non-recursive directory watcher 2 on `/root`, a non-recursive
watcher 4 on `/root/a`, and a recursive watcher 3 on `/root`. -/
def sC6 : SysState :=
  ⟨[], [(String.toList "/root", [2]), (String.toList "/root/a", [4])],
    [(String.toList "/root", [3])], [], [], []⟩

/-- Witness for C6, the spec's own example: on a change at `/root/a/b.txt` the
recursive watcher on `/root` fires and the non-recursive watcher on `/root` does not,
while the non-recursive watcher on the immediate parent `/root/a` does. -/
theorem C6_directory_watch_scope_witness :
    Notif.rdir (String.toList "/root") 3 (forwardSlash (envId.normalizePath pC6)) ∈
      invokeDirectoryWatchers envId sC6 pC6 ∧
    ¬ Notif.dir (String.toList "/root") 2 (forwardSlash (envId.normalizePath pC6)) ∈
      invokeDirectoryWatchers envId sC6 pC6 ∧
    Notif.dir (String.toList "/root/a") 4 (forwardSlash (envId.normalizePath pC6)) ∈
      invokeDirectoryWatchers envId sC6 pC6 := by
  have h3 := C6_directory_watch_scope envId sC6 pC6 (String.toList "/root") 3
    (by decide) (by decide)
  have h2 := C6_directory_watch_scope envId sC6 pC6 (String.toList "/root") 2
    (by decide) (by decide)
  have h4 := C6_directory_watch_scope envId sC6 pC6 (String.toList "/root/a") 4
    (by decide) (by decide)
  refine ⟨h3.2.mpr ⟨by decide, by decide⟩, ?_, h4.1.mpr ⟨by decide, by decide⟩⟩
  intro hmem
  have := (h2.1.mp hmem).1
  exact absurd this (by decide)

/-! ## C10 — registration and close are frame-respecting -/

theorem createWatcher_get_ne (env : Env) (m : List (Path × List CbId)) (path : Path)
    (cb : CbId) (k : Path) (hk : ¬(k = env.normalizePath path)) :
    mapGet (createWatcher env m path cb) k = mapGet m k :=
  mapGet_mapSet_ne m _ k _ hk

theorem createWatcher_getD_self (env : Env) (m : List (Path × List CbId)) (path : Path)
    (cb : CbId) :
    mapGetD (createWatcher env m path cb) (env.normalizePath path) [] =
      mapGetD m (env.normalizePath path) [] ++ [cb] := by
  simp [createWatcher, mapGetD, mapGet_mapSet_self]

theorem closeWatcher_get_ne (env : Env) (m : List (Path × List CbId)) (path : Path)
    (cb : CbId) (k : Path) (hk : ¬(k = env.normalizePath path)) :
    mapGet (closeWatcher env m path cb) k = mapGet m k := by
  by_cases hrem : ((mapGetD m (env.normalizePath path) []).filter
      (fun x => decide ¬(x = cb))).length > 0
  · rw [closeWatcher_eq, if_pos hrem]
    exact mapGet_mapSet_ne m _ k _ hk
  · rw [closeWatcher_eq, if_neg hrem]
    exact mapGet_mapDelete_ne m _ k hk

theorem closeWatcher_getD_self (env : Env) (m : List (Path × List CbId)) (path : Path)
    (cb : CbId) (hnd : (m.map Prod.fst).Nodup) :
    mapGetD (closeWatcher env m path cb) (env.normalizePath path) [] =
      (mapGetD m (env.normalizePath path) []).filter (fun x => decide ¬(x = cb)) := by
  by_cases hrem : ((mapGetD m (env.normalizePath path) []).filter
      (fun x => decide ¬(x = cb))).length > 0
  · rw [closeWatcher_eq, if_pos hrem]
    simp [mapGetD, mapGet_mapSet_self]
  · have hrem0 : (mapGetD m (env.normalizePath path) []).filter
        (fun x => decide ¬(x = cb)) = [] :=
      List.length_eq_zero.mp (Nat.eq_zero_of_not_pos hrem)
    rw [closeWatcher_eq, if_neg hrem, hrem0, mapGetD, mapGet_mapDelete_self m _ hnd]
    rfl

/-- **C10.** Registering a file or directory watcher, and closing the returned handle,
invokes no callback (the operations emit no events) and neither reads nor mutates the
deleted-file tracker or the pending-timer set (those components are unchanged, and
every registry the operation produces is independent of them). Each of the four
operations touches only its own registry: the three watcher registries it does not
register in (or close on) are unchanged; within the touched registry, entries for
other paths are unchanged; registration appends the callback after the path's existing
callbacks, and close keeps the path's other callbacks in their order (removing the
reference-equal instances). A directory watcher's close additionally removes exactly
its own queued thunks from the queued directory-change set, preserving every other
registration's thunks in order. (`hndf`/`hndd`/`hndr`: JavaScript `Map`s have no
duplicate keys.) -/
theorem C10_watch_registration_frame (env : Env) (s : SysState) (p : Path) (cb : CbId)
    (r : Bool) (w : Nat) (k : Path) (df : List (Path × Bool)) (tc : List Nat)
    (hndf : (s.fileWatcherCallbacksMap.map Prod.fst).Nodup)
    (hndd : (s.directoryWatcherCallbacksMap.map Prod.fst).Nodup)
    (hndr : (s.recursiveDirectoryWatcherCallbacksMap.map Prod.fst).Nodup) :
    (watchFile env s p cb).2 = [] ∧
    ((watchFile env s p cb).1).deletedFiles = s.deletedFiles ∧
    ((watchFile env s p cb).1).timeoutCallbacks = s.timeoutCallbacks ∧
    ((watchFile env s p cb).1).queuedThunks = s.queuedThunks ∧
    ((watchFile env s p cb).1).directoryWatcherCallbacksMap =
      s.directoryWatcherCallbacksMap ∧
    ((watchFile env s p cb).1).recursiveDirectoryWatcherCallbacksMap =
      s.recursiveDirectoryWatcherCallbacksMap ∧
    (¬(k = env.normalizePath p) →
      mapGet ((watchFile env s p cb).1).fileWatcherCallbacksMap k =
        mapGet s.fileWatcherCallbacksMap k) ∧
    mapGetD ((watchFile env s p cb).1).fileWatcherCallbacksMap
        (env.normalizePath p) [] =
      mapGetD s.fileWatcherCallbacksMap (env.normalizePath p) [] ++ [cb] ∧
    ((watchFile env { s with deletedFiles := df, timeoutCallbacks := tc }
        p cb).1).fileWatcherCallbacksMap =
      ((watchFile env s p cb).1).fileWatcherCallbacksMap ∧
    (watchDirectory env s p cb r w).2 = [] ∧
    ((watchDirectory env s p cb r w).1).deletedFiles = s.deletedFiles ∧
    ((watchDirectory env s p cb r w).1).timeoutCallbacks = s.timeoutCallbacks ∧
    ((watchDirectory env s p cb r w).1).queuedThunks = s.queuedThunks ∧
    ((watchDirectory env s p cb r w).1).fileWatcherCallbacksMap =
      s.fileWatcherCallbacksMap ∧
    (r = true →
      ((watchDirectory env s p cb r w).1).directoryWatcherCallbacksMap =
        s.directoryWatcherCallbacksMap ∧
      (¬(k = env.normalizePath p) →
        mapGet ((watchDirectory env s p cb r w).1).recursiveDirectoryWatcherCallbacksMap
            k =
          mapGet s.recursiveDirectoryWatcherCallbacksMap k) ∧
      mapGetD ((watchDirectory env s p cb r w).1).recursiveDirectoryWatcherCallbacksMap
          (env.normalizePath p) [] =
        mapGetD s.recursiveDirectoryWatcherCallbacksMap (env.normalizePath p) [] ++
          [cb]) ∧
    (r = false →
      ((watchDirectory env s p cb r w).1).recursiveDirectoryWatcherCallbacksMap =
        s.recursiveDirectoryWatcherCallbacksMap ∧
      (¬(k = env.normalizePath p) →
        mapGet ((watchDirectory env s p cb r w).1).directoryWatcherCallbacksMap k =
          mapGet s.directoryWatcherCallbacksMap k) ∧
      mapGetD ((watchDirectory env s p cb r w).1).directoryWatcherCallbacksMap
          (env.normalizePath p) [] =
        mapGetD s.directoryWatcherCallbacksMap (env.normalizePath p) [] ++ [cb]) ∧
    ((watchDirectory env { s with deletedFiles := df, timeoutCallbacks := tc }
        p cb r w).1).directoryWatcherCallbacksMap =
      ((watchDirectory env s p cb r w).1).directoryWatcherCallbacksMap ∧
    ((watchDirectory env { s with deletedFiles := df, timeoutCallbacks := tc }
        p cb r w).1).recursiveDirectoryWatcherCallbacksMap =
      ((watchDirectory env s p cb r w).1).recursiveDirectoryWatcherCallbacksMap ∧
    (watchFileClose env s p cb).2 = [] ∧
    ((watchFileClose env s p cb).1).deletedFiles = s.deletedFiles ∧
    ((watchFileClose env s p cb).1).timeoutCallbacks = s.timeoutCallbacks ∧
    ((watchFileClose env s p cb).1).queuedThunks = s.queuedThunks ∧
    ((watchFileClose env s p cb).1).directoryWatcherCallbacksMap =
      s.directoryWatcherCallbacksMap ∧
    ((watchFileClose env s p cb).1).recursiveDirectoryWatcherCallbacksMap =
      s.recursiveDirectoryWatcherCallbacksMap ∧
    (¬(k = env.normalizePath p) →
      mapGet ((watchFileClose env s p cb).1).fileWatcherCallbacksMap k =
        mapGet s.fileWatcherCallbacksMap k) ∧
    mapGetD ((watchFileClose env s p cb).1).fileWatcherCallbacksMap
        (env.normalizePath p) [] =
      (mapGetD s.fileWatcherCallbacksMap (env.normalizePath p) []).filter
        (fun x => decide ¬(x = cb)) ∧
    ((watchFileClose env { s with deletedFiles := df, timeoutCallbacks := tc }
        p cb).1).fileWatcherCallbacksMap =
      ((watchFileClose env s p cb).1).fileWatcherCallbacksMap ∧
    (watchDirectoryClose env s p cb r w).2 = [] ∧
    ((watchDirectoryClose env s p cb r w).1).deletedFiles = s.deletedFiles ∧
    ((watchDirectoryClose env s p cb r w).1).timeoutCallbacks = s.timeoutCallbacks ∧
    ((watchDirectoryClose env s p cb r w).1).fileWatcherCallbacksMap =
      s.fileWatcherCallbacksMap ∧
    ((watchDirectoryClose env s p cb r w).1).queuedThunks =
      s.queuedThunks.filter (fun q => decide ¬(q.owner = w)) ∧
    (r = true →
      ((watchDirectoryClose env s p cb r w).1).directoryWatcherCallbacksMap =
        s.directoryWatcherCallbacksMap ∧
      (¬(k = env.normalizePath p) →
        mapGet
            ((watchDirectoryClose env s p cb r w).1).recursiveDirectoryWatcherCallbacksMap
            k =
          mapGet s.recursiveDirectoryWatcherCallbacksMap k) ∧
      mapGetD
          ((watchDirectoryClose env s p cb r w).1).recursiveDirectoryWatcherCallbacksMap
          (env.normalizePath p) [] =
        (mapGetD s.recursiveDirectoryWatcherCallbacksMap (env.normalizePath p)
          []).filter (fun x => decide ¬(x = cb))) ∧
    (r = false →
      ((watchDirectoryClose env s p cb r w).1).recursiveDirectoryWatcherCallbacksMap =
        s.recursiveDirectoryWatcherCallbacksMap ∧
      (¬(k = env.normalizePath p) →
        mapGet ((watchDirectoryClose env s p cb r w).1).directoryWatcherCallbacksMap
            k =
          mapGet s.directoryWatcherCallbacksMap k) ∧
      mapGetD ((watchDirectoryClose env s p cb r w).1).directoryWatcherCallbacksMap
          (env.normalizePath p) [] =
        (mapGetD s.directoryWatcherCallbacksMap (env.normalizePath p) []).filter
          (fun x => decide ¬(x = cb))) ∧
    ((watchDirectoryClose env { s with deletedFiles := df, timeoutCallbacks := tc }
        p cb r w).1).directoryWatcherCallbacksMap =
      ((watchDirectoryClose env s p cb r w).1).directoryWatcherCallbacksMap ∧
    ((watchDirectoryClose env { s with deletedFiles := df, timeoutCallbacks := tc }
        p cb r w).1).recursiveDirectoryWatcherCallbacksMap =
      ((watchDirectoryClose env s p cb r w).1).recursiveDirectoryWatcherCallbacksMap ∧
    ((watchDirectoryClose env { s with deletedFiles := df, timeoutCallbacks := tc }
        p cb r w).1).queuedThunks =
      ((watchDirectoryClose env s p cb r w).1).queuedThunks := by
  refine ⟨rfl, rfl, rfl, rfl, rfl, rfl,
    fun hk => createWatcher_get_ne env s.fileWatcherCallbacksMap p cb k hk,
    createWatcher_getD_self env s.fileWatcherCallbacksMap p cb,
    rfl, rfl, ?_, ?_, ?_, ?_, ?_, ?_, ?_, ?_, rfl, rfl, rfl, rfl, rfl, rfl,
    fun hk => closeWatcher_get_ne env s.fileWatcherCallbacksMap p cb k hk,
    closeWatcher_getD_self env s.fileWatcherCallbacksMap p cb hndf,
    rfl, ?_, ?_, ?_, ?_, ?_, ?_, ?_, ?_, ?_, ?_⟩
  · cases r <;> rfl
  · cases r <;> rfl
  · cases r <;> rfl
  · cases r <;> rfl
  · rintro rfl
    exact ⟨rfl,
      fun hk => createWatcher_get_ne env s.recursiveDirectoryWatcherCallbacksMap p cb
        k hk,
      createWatcher_getD_self env s.recursiveDirectoryWatcherCallbacksMap p cb⟩
  · rintro rfl
    exact ⟨rfl,
      fun hk => createWatcher_get_ne env s.directoryWatcherCallbacksMap p cb k hk,
      createWatcher_getD_self env s.directoryWatcherCallbacksMap p cb⟩
  · cases r <;> rfl
  · cases r <;> rfl
  · cases r <;> rfl
  · cases r <;> rfl
  · cases r <;> rfl
  · cases r <;> rfl
  · cases r <;> rfl
  · rintro rfl
    exact ⟨rfl,
      fun hk => closeWatcher_get_ne env s.recursiveDirectoryWatcherCallbacksMap p cb
        k hk,
      closeWatcher_getD_self env s.recursiveDirectoryWatcherCallbacksMap p cb hndr⟩
  · rintro rfl
    exact ⟨rfl,
      fun hk => closeWatcher_get_ne env s.directoryWatcherCallbacksMap p cb k hk,
      closeWatcher_getD_self env s.directoryWatcherCallbacksMap p cb hndd⟩
  · cases r <;> rfl
  · cases r <;> rfl
  · cases r <;> rfl

/-- State for the C10 witness: file watcher 9 on `/a`, recursive directory watcher 5
on `/a`, and queued thunks owned by directory-watcher registrations 1 and 2. -/
def sC10 : SysState :=
  ⟨[(String.toList "/a", [9])], [], [(String.toList "/a", [5])],
    [⟨1, 10⟩, ⟨2, 20⟩], [], []⟩

/-- Witness for C10: registering callback 5 on `/a` leaves `/b` untouched and appends
after the existing callbacks on `/a` (in both the file and the recursive directory
registry); closing recursive directory registration 1 removes exactly its own queued
thunk (registration 2's survives) and exactly the reference-equal instances of
callback 5 from the `/a` entry. -/
theorem C10_watch_registration_frame_witness :
    mapGet ((watchFile envId sC10 (String.toList "/a") 5).1).fileWatcherCallbacksMap
        (String.toList "/b") =
      mapGet sC10.fileWatcherCallbacksMap (String.toList "/b") ∧
    mapGetD ((watchFile envId sC10 (String.toList "/a") 5).1).fileWatcherCallbacksMap
        (envId.normalizePath (String.toList "/a")) [] =
      mapGetD sC10.fileWatcherCallbacksMap
        (envId.normalizePath (String.toList "/a")) [] ++ [5] ∧
    mapGetD ((watchDirectory envId sC10 (String.toList "/a") 5 true
          1).1).recursiveDirectoryWatcherCallbacksMap
        (envId.normalizePath (String.toList "/a")) [] =
      mapGetD sC10.recursiveDirectoryWatcherCallbacksMap
        (envId.normalizePath (String.toList "/a")) [] ++ [5] ∧
    ((watchDirectoryClose envId sC10 (String.toList "/a") 5 true 1).1).queuedThunks =
      sC10.queuedThunks.filter (fun q => decide ¬(q.owner = 1)) ∧
    mapGetD ((watchDirectoryClose envId sC10 (String.toList "/a") 5 true
          1).1).recursiveDirectoryWatcherCallbacksMap
        (envId.normalizePath (String.toList "/a")) [] =
      (mapGetD sC10.recursiveDirectoryWatcherCallbacksMap
          (envId.normalizePath (String.toList "/a")) []).filter
        (fun x => decide ¬(x = 5)) := by
  obtain ⟨-, -, -, -, -, -, h7, h8, -, -, -, -, -, -, h15, -, -, -, -, -, -, -, -, -,
      -, -, -, -, -, -, -, h32, h33, -, -, -, -⟩ :=
    C10_watch_registration_frame envId sC10 (String.toList "/a") 5 true 1
      (String.toList "/b") [] [] (by decide) (by decide) (by decide)
  exact ⟨h7 (by decide), h8, (h15 rfl).2.2, h32, (h33 rfl).2.2⟩

end CTS

